import Mathlib

/-!
Verification of the particle-transport simulation in `src/components/Cell.tsx`
and the analytic-rate clamping in `src/sim/diffusion.ts` (repository
`taggatron/diffusion`).

The per-frame `useFrame` body of `Cell.tsx` is embedded as pure functions over
real numbers: 3-vectors are triples of reals, `THREE.Vector3` operations are
transcribed componentwise, and the per-particle / per-frame randomness
(`Math.random()` draws) is passed in explicitly, as the spec directs for an
injectable RNG.
-/

namespace DiffusionSim

/-- A `THREE.Vector3`: an (x, y, z) triple of reals. -/
abbrev Vec3 : Type := ℝ × ℝ × ℝ

/-- `THREE.Vector3.dot`. -/
def dot (a b : Vec3) : ℝ := a.1 * b.1 + a.2.1 * b.2.1 + a.2.2 * b.2.2

/-- Squared euclidean length of a vector. -/
def normSq (a : Vec3) : ℝ := dot a a

noncomputable section

/-- `THREE.Vector3.length`: the euclidean length. -/
def len (a : Vec3) : ℝ := Real.sqrt (normSq a)

/-- Componentwise vector addition (`THREE.Vector3.add`). -/
def vadd (a b : Vec3) : Vec3 := (a.1 + b.1, a.2.1 + b.2.1, a.2.2 + b.2.2)

/-- `THREE.Vector3.multiplyScalar`. -/
def vsmul (c : ℝ) (a : Vec3) : Vec3 := (c * a.1, c * a.2.1, c * a.2.2)

/-- `THREE.Vector3.normalize()`: three.js divides by `this.length() || 1`,
so the zero vector is left unchanged (it divides by 1). -/
def normalize (v : Vec3) : Vec3 :=
  vsmul (1 / (if len v = 0 then 1 else len v)) v

/-- `THREE.MathUtils.clamp(value, min, max) = Math.max(min, Math.min(max, value))`. -/
def clampT (v lo hi : ℝ) : ℝ := max lo (min hi v)

/-- `THREE.MathUtils.lerp(x, y, t) = (1 - t) * x + t * y`. -/
def lerpT (x y t : ℝ) : ℝ := (1 - t) * x + t * y

/-- The three props of `Cell` that drive one frame of the simulation
(`radius`, `gradient`, `temperatureC`), immutable within a step. -/
structure SimParams where
  radius : ℝ
  gradient : ℝ
  temperatureC : ℝ

/-- `Cell.tsx:184`: `tempNorm = clamp((temperatureC - 0) / 60, 0, 1)`. -/
def tempNorm (P : SimParams) : ℝ := clampT ((P.temperatureC - 0) / 60) 0 1

/-- `Cell.tsx:185`: `speedFactor = 0.6 + tempNorm * 1.8`. -/
def speedFactor (P : SimParams) : ℝ := 0.6 + tempNorm P * 1.8

/-- `Cell.tsx:189`: `radiusFactor = 1 / Math.max(0.35, membraneR)`. -/
def radiusFactor (P : SimParams) : ℝ := 1 / max 0.35 P.radius

/-- `Cell.tsx:193`: `basePerm = 0.985`. -/
def basePerm : ℝ := 0.985

/-- `Cell.tsx:194`: `bias = 0.015`. -/
def biasPerm : ℝ := 0.015

/-- `Cell.tsx:195`: `pEnter = clamp(basePerm - bias + 2 * bias * gradient, 0, 1)`. -/
def pEnter (P : SimParams) : ℝ :=
  clampT (basePerm - biasPerm + 2 * biasPerm * P.gradient) 0 1

/-- `Cell.tsx:196`: `pExit = clamp(basePerm + bias - 2 * bias * gradient, 0, 1)`. -/
def pExit (P : SimParams) : ℝ :=
  clampT (basePerm + biasPerm - 2 * biasPerm * P.gradient) 0 1

/-- `Cell.tsx:199`: `accel = 1.4 * speedFactor * radiusFactor`. -/
def accelOf (P : SimParams) : ℝ := 1.4 * speedFactor P * radiusFactor P

/-- `Cell.tsx:200`: `moveScale = 1.25 * speedFactor * radiusFactor`. -/
def moveScaleOf (P : SimParams) : ℝ := 1.25 * speedFactor P * radiusFactor P

/-- `Cell.tsx:201`: `damping = Math.pow(0.78, delta)` (real exponent). -/
def dampingOf (delta : ℝ) : ℝ := (0.78 : ℝ) ^ delta

/-- One slot of the particle pool: `positions[3i..3i+2]`, `velocities[3i..3i+2]`
and the membrane-side flag `prevOutside[i]` (`true` = outside, i.e. stored 1). -/
structure Particle where
  pos : Vec3
  vel : Vec3
  side : Bool

/-- A crossing event kind: `enter` (outside to inside) or `exit` (inside to
outside), as tagged at `Cell.tsx:253`. -/
inductive CrossKind where
  | cEnter : CrossKind
  | cExit : CrossKind
deriving DecidableEq

/-- The `Math.random()` draws one particle consumes in one step: three
acceleration draws already mapped through `*2-1` (so each lies in [-1,1]),
and the raw permeation draw `u` in [0,1). -/
structure StepDraws where
  r1 : ℝ
  r2 : ℝ
  r3 : ℝ
  u : ℝ

/-- `Cell.tsx:213-217`: add the random acceleration impulse to the velocity
and apply the damping factor. -/
def newVel (P : SimParams) (delta : ℝ) (d : StepDraws) (p : Particle) : Vec3 :=
  vsmul (dampingOf delta)
    (p.vel.1 + d.r1 * accelOf P * delta,
     p.vel.2.1 + d.r2 * accelOf P * delta,
     p.vel.2.2 + d.r3 * accelOf P * delta)

/-- `Cell.tsx:220`: integrate the position,
`tmpV3b.add(tmpV3.clone().multiplyScalar(delta * moveScale))`. -/
def newPosRaw (P : SimParams) (delta : ℝ) (d : StepDraws) (p : Particle) : Vec3 :=
  vadd p.pos (vsmul (delta * moveScaleOf P) (newVel P delta d p))

/-- `Cell.tsx:230-234`, the rejected-crossing branch.  Note the three.js
aliasing: `normal.multiplyScalar(...)` mutates `normal` in place, so both the
position copy and the velocity update below use the SCALED normal
`(R ± 0.02 R) * unitNormal`, not the unit normal. -/
def reflectAt (P : SimParams) (inward : Bool) (p1 v2 : Vec3) : Vec3 × Vec3 :=
  let scaledNormal :=
    vsmul (P.radius + (if inward then 0.02 * P.radius else -(0.02 * P.radius)))
      (normalize p1)
  let vRad := dot v2 scaledNormal
  (scaledNormal, vadd v2 (vsmul (-2 * vRad) scaledNormal))

/-- `Cell.tsx:225-236`: if the radial step crossed the membrane, draw `u`
against the direction's probability; on rejection reflect, otherwise keep the
integrated position and velocity. -/
def resolveCrossing (P : SimParams) (u dist0 dist1 : ℝ) (p1 v2 : Vec3) :
    Vec3 × Vec3 :=
  if (dist0 < P.radius ∧ P.radius ≤ dist1) ∨ (P.radius ≤ dist0 ∧ dist1 < P.radius) then
    if P.radius ≤ dist0 ∧ dist1 < P.radius then
      -- crossedInward: `allow = Math.random() < pEnter`
      if u < pEnter P then (p1, v2) else reflectAt P true p1 v2
    else
      -- crossedOutward: `allow = Math.random() < pExit`
      if u < pExit P then (p1, v2) else reflectAt P false p1 v2
  else (p1, v2)

/-- `Cell.tsx:224`: the whole membrane block is guarded by `dist0 !== dist1`. -/
def resolved (P : SimParams) (delta : ℝ) (d : StepDraws) (p : Particle) :
    Vec3 × Vec3 :=
  if len p.pos ≠ len (newPosRaw P delta d p) then
    resolveCrossing P d.u (len p.pos) (len (newPosRaw P delta d p))
      (newPosRaw P delta d p) (newVel P delta d p)
  else (newPosRaw P delta d p, newVel P delta d p)

/-- `Cell.tsx:242-261`: compare `dist >= membraneR` with the stored side flag;
on a change emit an enter/exit event and update the flag. -/
def detectCrossing (R dist : ℝ) (side : Bool) : Bool × Option CrossKind :=
  let isOutside : Bool := if R ≤ dist then true else false
  if side ≠ isOutside then
    (isOutside, some (if isOutside then CrossKind.cExit else CrossKind.cEnter))
  else (side, none)

/-- `Cell.tsx:263-267`: radial containment clamp.  `dist` is the length
computed at line 239; both `if`s test the ORIGINAL `dist`, and the scale
denominators are floored at `1e-6`. -/
def clampRadial (R dist : ℝ) (v : Vec3) : Vec3 :=
  let minR := R * 0.15
  let maxR := R * 2.6
  let v1 := if dist < minR then vsmul (minR / max 1e-6 dist) v else v
  if maxR < dist then vsmul (maxR / max 1e-6 dist) v1 else v1

/-- One full iteration of the per-particle loop (`Cell.tsx:203-276`):
integration, membrane resolution, crossing detection (which updates the side
flag and may emit an event), then the radial clamp. -/
def stepParticle (P : SimParams) (delta : ℝ) (d : StepDraws) (p : Particle) :
    Particle × Option CrossKind :=
  let pv := resolved P delta d p
  let dist := len pv.1
  let sc := detectCrossing P.radius dist p.side
  (⟨clampRadial P.radius dist pv.1, pv.2, sc.1⟩, sc.2)

/-- The occupancy sample passed to `onCounts` (`Cell.tsx:288`): `red` counts
active particles with `species[i] === 0`, `green` is `activeCount - red`. -/
structure CountsSample where
  red : ℕ
  green : ℕ
deriving DecidableEq

/-- The rate sample passed to `onFlux` (`Cell.tsx:303`). -/
structure RateSample where
  inRate : ℝ
  outRate : ℝ

/-- The rate-aggregator state: `fluxElapsedRef` and `fluxCountsRef`
(`Cell.tsx:56-57`). -/
structure FluxState where
  elapsed : ℝ
  enterCount : ℕ
  exitCount : ℕ
deriving DecidableEq

/-- `Cell.tsx:293-304`: accumulate elapsed time; once it reaches the 1-unit
window, emit `{inRate: enter/elapsed, outRate: exit/elapsed}` and reset the
counters and the elapsed time to zero. -/
def fluxStep (delta : ℝ) (s : FluxState) : FluxState × Option RateSample :=
  let fe := s.elapsed + delta
  if 1 ≤ fe then
    (⟨0, 0, 0⟩, some ⟨(s.enterCount : ℝ) / fe, (s.exitCount : ℝ) / fe⟩)
  else (⟨fe, s.enterCount, s.exitCount⟩, none)

/-- `red` of `Cell.tsx:284-287`: the number of indices `i < activeCount` with
`species[i] === 0`. -/
def countRed (species : List ℕ) (activeCount : ℕ) : ℕ :=
  (species.take activeCount).count 0

/-- `Cell.tsx:281-289`: accumulate `countsElapsed`; once it reaches 1, emit
the occupancy counts `{red, green: activeCount - red}` and reset to zero. -/
def countsStep (delta elapsed : ℝ) (species : List ℕ) (activeCount : ℕ) :
    ℝ × Option CountsSample :=
  let ce := elapsed + delta
  if 1 ≤ ce then
    (0, some ⟨countRed species activeCount, activeCount - countRed species activeCount⟩)
  else (ce, none)

/-- The mutable state one `useFrame` call owns: the active particle slots
(index < activeCount), the full `species` array (length `MAX_PARTICLES`), the
two sampling-window clocks and the crossing counters. -/
structure PoolState where
  particles : List Particle
  species : List ℕ
  countsElapsed : ℝ
  fluxElapsed : ℝ
  enterCount : ℕ
  exitCount : ℕ

/-- The particle loop of `Cell.tsx:203-276` with per-index draws: steps every
active particle once and totals the emitted enter/exit events. -/
def stepActive (P : SimParams) (delta : ℝ) (draws : ℕ → StepDraws) :
    ℕ → List Particle → List Particle × ℕ × ℕ
  | _, [] => ([], 0, 0)
  | i, p :: rest =>
    let r := stepParticle P delta (draws i) p
    let rec' := stepActive P delta draws (i + 1) rest
    (r.1 :: rec'.1,
     (if r.2 = some CrossKind.cEnter then 1 else 0) + rec'.2.1,
     (if r.2 = some CrossKind.cExit then 1 else 0) + rec'.2.2)

/-- One whole `useFrame(delta)` call over the simulation state: the particle
loop (mutating positions, velocities, side flags and incrementing the crossing
counters), then the occupancy-count emission (`Cell.tsx:280-289`), then the
flux emission (`Cell.tsx:291-305`).  The `species` array is not touched
anywhere in the frame loop. -/
def stepPool (P : SimParams) (delta : ℝ) (draws : ℕ → StepDraws)
    (s : PoolState) : PoolState × Option CountsSample × Option RateSample :=
  let stepped := stepActive P delta draws 0 s.particles
  let counts := countsStep delta s.countsElapsed s.species stepped.1.length
  let flux := fluxStep delta ⟨s.fluxElapsed, s.enterCount + stepped.2.1,
    s.exitCount + stepped.2.2⟩
  (⟨stepped.1, s.species, counts.1, flux.1.elapsed, flux.1.enterCount,
    flux.1.exitCount⟩, counts.2, flux.2)

/-- The number of active particles currently inside the membrane
(`|position| < R`), the quantity the spec calls the current side occupancy. -/
def currentInsideCount (ps : List Particle) (R : ℝ) : ℕ :=
  ps.countP (fun p => decide (len p.pos < R))

/-- `MAX_PARTICLES` (`Cell.tsx:16`). -/
def MAXP : ℕ := 1400

/-- `MIN_ACTIVE_PARTICLES` (`Cell.tsx:17`). -/
def MINP : ℕ := 450

/-- `Cell.tsx:69-77`: `activeCount = Math.floor(lerp(MIN_ACTIVE_PARTICLES,
MAX_PARTICLES, clamp(gradient, 0, 1)))`. -/
def activeCountN (g : ℝ) : ℕ :=
  (⌊lerpT (MINP : ℝ) (MAXP : ℝ) (clampT g 0 1)⌋).toNat

/-- `Cell.tsx:122`: `insideTargetFrac = clamp(0.1 + 0.8 * gradient, 0.05, 0.95)`. -/
def insideTargetFrac (g : ℝ) : ℝ := clampT (0.1 + 0.8 * g) 0.05 0.95

/-- `Cell.tsx:123`: `insideTarget = Math.round(activeCount * insideTargetFrac)`
(JavaScript `Math.round x = Math.floor (x + 0.5)` on the nonnegative values
that occur here). -/
def insideTargetN (g : ℝ) : ℕ :=
  (⌊(activeCountN g : ℝ) * insideTargetFrac g + 0.5⌋).toNat

/-- The `Math.random()` draws one active particle consumes during reseed
(`Cell.tsx:145-154`): three direction draws already mapped through `*2-1`,
the raw radius draw `rr` in [0,1), and three velocity draws in [-1,1]. -/
structure ReseedDraws where
  dx : ℝ
  dy : ℝ
  dz : ℝ
  rr : ℝ
  v1 : ℝ
  v2 : ℝ
  v3 : ℝ

/-- `Cell.tsx:144-162`, one active slot of the reseed loop: a fresh position on
a random direction at an inside or outside radius, a small random velocity,
and the side flag `prevOutside[i] = inside ? 0 : 1`. -/
def reseedParticle (radius : ℝ) (inside : Bool) (d : ReseedDraws) : Particle :=
  let r := if inside then radius * (d.rr * 0.95) else radius * (1.05 + d.rr * 1.6)
  ⟨vsmul r (normalize (d.dx, d.dy, d.dz)),
   (d.v1 * 0.02, d.v2 * 0.02, d.v3 * 0.02),
   !inside⟩

/-- The reseed `useEffect` (`Cell.tsx:118-170`): rewrites the active slots
(`inside` iff the index is below `insideTarget`, with random placement) and,
for every index `i < MAX_PARTICLES`, sets `species[i]` to 0/1 for active slots
while inactive (parked) slots keep their previous species value.  The sampling
clocks and crossing counters are refs the effect does not touch. -/
def reseedPool (radius g : ℝ) (draws : ℕ → ReseedDraws) (s : PoolState) :
    PoolState :=
  { s with
    particles := (List.range (activeCountN g)).map
      (fun i => reseedParticle radius (decide (i < insideTargetN g)) (draws i)),
    species := (List.range MAXP).map
      (fun i => if i < activeCountN g then (if i < insideTargetN g then 0 else 1)
        else s.species.getD i 1) }

end

/-! ### The analytic-rate formula, `src/sim/diffusion.ts` -/

/-- The argument record of `computeDiffusionRate` (`diffusion.ts:1-5`). -/
structure DiffusionInputs where
  radiusUm : ℚ
  deltaC : ℚ
  temperatureC : ℚ

/-- `diffusion.ts:72-74`: `clamp(value, min, max) = Math.min(max, Math.max(min, value))`. -/
def clampD (value lo hi : ℚ) : ℚ := min hi (max lo value)

/-- `diffusion.ts:13`: the radius value `computeDiffusionRate` actually uses. -/
def usedRadiusUm (i : DiffusionInputs) : ℚ := clampD i.radiusUm 1 200

/-- `diffusion.ts:14`: the gradient (`deltaC`) value actually used. -/
def usedDeltaC (i : DiffusionInputs) : ℚ := clampD i.deltaC 0 1

/-- `diffusion.ts:15`: the temperature value actually used. -/
def usedTemperatureC (i : DiffusionInputs) : ℚ := clampD i.temperatureC (-10) 80

noncomputable section

/-- `diffusion.ts:12-69`: the two-compartment analytic rate, computed from the
clamped inputs only.  Returned fields follow the source's return object. -/
def computeDiffusionRate (i : DiffusionInputs) :
    ℝ × ℝ × ℝ × ℝ × ℝ × ℝ × ℝ × ℝ :=
  let radiusUm : ℝ := (usedRadiusUm i : ℝ)
  let deltaC : ℝ := (usedDeltaC i : ℝ)
  let temperatureC : ℝ := (usedTemperatureC i : ℝ)
  let surfaceArea := 4 * Real.pi * radiusUm * radiusUm
  let volume := (4 / 3) * Real.pi * radiusUm ^ (3 : ℕ)
  let saToV := surfaceArea / volume
  let thicknessUm : ℝ := 0.01
  let temperatureFactor := (2 : ℝ) ^ ((temperatureC - 25) / 10)
  let permeability := temperatureFactor / thicknessUm
  let flux := surfaceArea * permeability * deltaC
  let outsideVolumeScale : ℝ := 10
  let outsideVolume := volume * outsideVolumeScale
  let dDeltaCDt := -flux * (1 / volume + 1 / outsideVolume)
  let rawRate := |dDeltaCDt|
  let baselineSurfaceArea := 4 * Real.pi * 12 * 12
  let baselineVolume := (4 / 3) * Real.pi * (12 : ℝ) ^ (3 : ℕ)
  let baselineFlux := baselineSurfaceArea * (1 / thicknessUm) * 0.6
  let baselineOutsideVolume := baselineVolume * outsideVolumeScale
  let baselineDDeltaCDt := -baselineFlux * (1 / baselineVolume + 1 / baselineOutsideVolume)
  let baselineRate := |baselineDDeltaCDt|
  (surfaceArea, volume, saToV, temperatureFactor, flux, dDeltaCDt, rawRate,
   rawRate / baselineRate)

end

/-! ### Lemmas and theorems -/

/-! ### Basic facts about the vector operations -/

lemma len_nonneg (v : Vec3) : 0 ≤ len v := Real.sqrt_nonneg _

lemma normSq_vsmul (c : ℝ) (v : Vec3) : normSq (vsmul c v) = c ^ 2 * normSq v := by
  simp only [normSq, dot, vsmul]; ring

lemma len_vsmul (c : ℝ) (v : Vec3) : len (vsmul c v) = |c| * len v := by
  rw [len, normSq_vsmul, Real.sqrt_mul (sq_nonneg c), Real.sqrt_sq_eq_abs, len]

lemma len_axis (x : ℝ) : len (x, 0, 0) = |x| := by
  rw [len, show normSq (x, 0, 0) = x ^ 2 by simp only [normSq, dot]; ring,
    Real.sqrt_sq_eq_abs]

lemma len_normalize (v : Vec3) (h : len v ≠ 0) : len (normalize v) = 1 := by
  have hpos : 0 < len v := lt_of_le_of_ne (len_nonneg v) (Ne.symm h)
  rw [normalize, if_neg h, len_vsmul, abs_of_nonneg (by positivity),
    one_div, inv_mul_cancel₀ h]

/-! ### Facts about crossing detection and the radial clamp -/

lemma detect_fst (R dist : ℝ) (side : Bool) :
    ((detectCrossing R dist side).1 = true) ↔ R ≤ dist := by
  by_cases h : R ≤ dist <;> cases side <;> simp [detectCrossing, h]

lemma detect_consistent (R dist : ℝ) (side : Bool)
    (h : side = true ↔ R ≤ dist) : detectCrossing R dist side = (side, none) := by
  by_cases hR : R ≤ dist
  · have : side = true := h.mpr hR
    simp [detectCrossing, hR, this]
  · have : side = false := by
      cases side
      · rfl
      · exact absurd (h.mp rfl) hR
    simp [detectCrossing, hR, this]

lemma clampRadial_noop (R dist : ℝ) (v : Vec3)
    (h1 : ¬ dist < R * 0.15) (h2 : ¬ R * 2.6 < dist) :
    clampRadial R dist v = v := by
  simp only [clampRadial, if_neg h1, if_neg h2]

/-- Under any membrane radius at least `1e-6` (the scene radius is in fact
clamped into `[0.35, 2.2]` by `CellScene.tsx:72`), the radial clamp never moves
a particle across `R`: the clamped position is outside iff the unclamped
distance was. -/
lemma clampRadial_side_iff (R dist : ℝ) (v : Vec3) (hR : (1e-6 : ℝ) ≤ R)
    (hlen : len v = dist) :
    (R ≤ len (clampRadial R dist v) ↔ R ≤ dist) := by
  have hd : 0 ≤ dist := hlen ▸ len_nonneg v
  have hRpos : (0 : ℝ) < R := lt_of_lt_of_le (by norm_num) hR
  have hmax : (0 : ℝ) < max 1e-6 dist :=
    lt_of_lt_of_le (by norm_num) (le_max_left _ _)
  simp only [clampRadial]
  by_cases h1 : dist < R * 0.15
  · have h2 : ¬ R * 2.6 < dist := by nlinarith
    rw [if_pos h1, if_neg h2, len_vsmul, hlen,
      abs_of_nonneg (by positivity : (0:ℝ) ≤ R * 0.15 / max 1e-6 dist)]
    have hle : R * 0.15 / max 1e-6 dist * dist ≤ R * 0.15 := by
      rw [div_mul_eq_mul_div, div_le_iff₀ hmax]
      nlinarith [le_max_right (1e-6 : ℝ) dist]
    constructor
    · intro hcon; nlinarith
    · intro hcon; nlinarith
  · rw [if_neg h1]
    by_cases h2 : R * 2.6 < dist
    · have hd6 : (1e-6 : ℝ) < dist := by nlinarith
      rw [if_pos h2, len_vsmul, hlen, max_eq_right (le_of_lt hd6),
        abs_of_nonneg (by positivity : (0:ℝ) ≤ R * 2.6 / dist),
        div_mul_cancel₀ _ (by positivity : dist ≠ 0)]
      constructor
      · intro _; nlinarith
      · intro _; nlinarith
    · rw [if_neg h2, hlen]


/-- C1: for every active particle, after any completed `step(delta)` the stored
side flag equals the predicate `|position| >= R`; in particular the radial
clamp into `[0.15*R, 2.6*R]`, performed after the side flag is updated, never
moves a particle across `R` (membrane radius at least `1e-6`; the scene radius
is always in `[0.35, 2.2]`). -/
theorem c1_side_consistency (P : SimParams) (delta : ℝ) (d : StepDraws)
    (p : Particle) (hR : (1e-6 : ℝ) ≤ P.radius) :
    ((stepParticle P delta d p).1.side = true ↔
      P.radius ≤ len (stepParticle P delta d p).1.pos) := by
  simp only [stepParticle]
  rw [detect_fst]
  exact (clampRadial_side_iff P.radius (len (resolved P delta d p).1)
    (resolved P delta d p).1 hR rfl).symm

/-- Witness for C1 at a concrete input: radius 1, a particle at distance 2. -/
theorem c1_side_consistency_witness :
    (1e-6 : ℝ) ≤ (1 : ℝ) ∧
      (((stepParticle ⟨1, 0, 25⟩ 0 ⟨0, 0, 0, 0⟩
          ⟨(2, 0, 0), (0, 0, 0), true⟩).1.side = true) ↔
        (1 : ℝ) ≤ len (stepParticle ⟨1, 0, 25⟩ 0 ⟨0, 0, 0, 0⟩
          ⟨(2, 0, 0), (0, 0, 0), true⟩).1.pos) :=
  ⟨by norm_num, c1_side_consistency ⟨1, 0, 25⟩ 0 ⟨0, 0, 0, 0⟩
    ⟨(2, 0, 0), (0, 0, 0), true⟩ (by norm_num)⟩

/-- C2 counterexample: at gradient 0 the code's enter-crossing probability is
the constant `0.97`, and no rate constant `k` writes that constant as
`1 - exp(-k*delta)` for all positive `delta` — the code's acceptance
probability does not depend on `delta`. -/
theorem c2_counterexample :
    ¬ ∃ k : ℝ, ∀ dlt : ℝ, 0 < dlt →
      pEnter ⟨1, 0, 25⟩ = 1 - Real.exp (-(k * dlt)) := by
  rintro ⟨k, hk⟩
  have hp : pEnter ⟨1, 0, 25⟩ = 0.97 := by
    simp only [pEnter, clampT, basePerm, biasPerm]
    norm_num [min_def, max_def]
  have h1 := hk 1 one_pos
  have h2 := hk 2 two_pos
  rw [hp] at h1 h2
  have he : Real.exp (-(k * 1)) = Real.exp (-(k * 2)) := by linarith
  have hk0 : k = 0 := by
    have := Real.exp_eq_exp.mp he
    linarith
  rw [hk0] at h1
  norm_num [Real.exp_zero] at h1

/-- C2 (amended): the membrane acceptance probabilities are computed from the
gradient alone and are independent of the step's `delta`; for gradient in
`[0,1]` they are exactly `basePerm - bias + 2*bias*g = 0.97 + 0.03*g` and
`basePerm + bias - 2*bias*g = 1 - 0.03*g`, and their sum is the constant
`2 * basePerm` (the gradient only shifts the balance). -/
theorem c2_amended (P : SimParams) (h0 : 0 ≤ P.gradient) (h1 : P.gradient ≤ 1) :
    pEnter P = 0.97 + 0.03 * P.gradient ∧
      pExit P = 1 - 0.03 * P.gradient ∧
      pEnter P + pExit P = 2 * basePerm := by
  have hpe : pEnter P = 0.97 + 0.03 * P.gradient := by
    unfold pEnter clampT basePerm biasPerm
    rw [min_eq_right (by nlinarith), max_eq_right (by nlinarith)]
    ring
  have hpx : pExit P = 1 - 0.03 * P.gradient := by
    unfold pExit clampT basePerm biasPerm
    rw [min_eq_right (by nlinarith), max_eq_right (by nlinarith)]
    ring
  exact ⟨hpe, hpx, by rw [hpe, hpx]; unfold basePerm; ring⟩

/-- Witness for C2 (amended) at gradient 1/2. -/
theorem c2_amended_witness :
    (0 : ℝ) ≤ 1 / 2 ∧
      (pEnter ⟨1, 1 / 2, 25⟩ = 0.97 + 0.03 * (1 / 2) ∧
        pExit ⟨1, 1 / 2, 25⟩ = 1 - 0.03 * (1 / 2) ∧
        pEnter ⟨1, 1 / 2, 25⟩ + pExit ⟨1, 1 / 2, 25⟩ = 2 * basePerm) :=
  ⟨by norm_num, c2_amended ⟨1, 1 / 2, 25⟩ (by norm_num) (by norm_num)⟩

/-- C3 counterexample: at gradient 0 the exit probability is exactly 1 — it is
not strictly less than 1, so the claimed strict bound fails. -/
theorem c3_counterexample :
    pExit ⟨1, 0, 25⟩ = 1 ∧ ¬ pExit ⟨1, 0, 25⟩ < 1 := by
  have h : pExit ⟨1, 0, 25⟩ = 1 := by
    simp only [pExit, clampT, basePerm, biasPerm]
    norm_num [min_def, max_def]
  exact ⟨h, by rw [h]; exact lt_irrefl 1⟩

/-- C3 (amended): at the gradient endpoints both probabilities are strictly
positive (never a hard wall), but the strict upper bound fails on one side of
each endpoint: at gradient 0, `pEnter = 0.97 < 1` while `pExit = 1` exactly;
at gradient 1, `pExit = 0.97 < 1` while `pEnter = 1` exactly. -/
theorem c3_amended (P : SimParams) :
    (P.gradient = 0 →
      0 < pEnter P ∧ pEnter P < 1 ∧ 0 < pExit P ∧ pExit P = 1) ∧
    (P.gradient = 1 →
      0 < pEnter P ∧ pEnter P = 1 ∧ 0 < pExit P ∧ pExit P < 1) := by
  constructor
  · intro hg
    unfold pEnter pExit clampT basePerm biasPerm
    rw [hg]
    norm_num [min_def, max_def]
  · intro hg
    unfold pEnter pExit clampT basePerm biasPerm
    rw [hg]
    norm_num [min_def, max_def]

/-- Witness for C3 (amended) at gradient 0. -/
theorem c3_amended_witness :
    0 < pEnter ⟨1, 0, 25⟩ ∧ pEnter ⟨1, 0, 25⟩ < 1 ∧
      0 < pExit ⟨1, 0, 25⟩ ∧ pExit ⟨1, 0, 25⟩ = 1 :=
  (c3_amended ⟨1, 0, 25⟩).1 rfl

/-- C9: `computeDiffusionRate` clamps every parameter before use: the radius
it uses lies in [1,200], the gradient in [0,1] and the temperature in
[-10,80]; out-of-range inputs are silently normalized, never rejected (the
function is total). -/
theorem c9_clamping (i : DiffusionInputs) :
    1 ≤ usedRadiusUm i ∧ usedRadiusUm i ≤ 200 ∧
      0 ≤ usedDeltaC i ∧ usedDeltaC i ≤ 1 ∧
      (-10) ≤ usedTemperatureC i ∧ usedTemperatureC i ≤ 80 := by
  unfold usedRadiusUm usedDeltaC usedTemperatureC clampD
  exact ⟨le_min (by norm_num) (le_max_left _ _), min_le_left _ _,
    le_min (by norm_num) (le_max_left _ _), min_le_left _ _,
    le_min (by norm_num) (le_max_left _ _), min_le_left _ _⟩

/-- C7: whenever the accumulated window time reaches the 1-unit window length,
the aggregator emits `inRate = enterCount/elapsed`, `outRate =
exitCount/elapsed`, resets both counters and the elapsed time to zero, the
divisor is strictly positive at emission, and every emitted rate is
nonnegative. -/
theorem c7_flux_window (delta : ℝ) (s : FluxState) (h : 1 ≤ s.elapsed + delta) :
    (fluxStep delta s).1 = ⟨0, 0, 0⟩ ∧
      (fluxStep delta s).2 = some ⟨(s.enterCount : ℝ) / (s.elapsed + delta),
        (s.exitCount : ℝ) / (s.elapsed + delta)⟩ ∧
      0 < s.elapsed + delta ∧
      (∀ smp : RateSample, (fluxStep delta s).2 = some smp →
        0 ≤ smp.inRate ∧ 0 ≤ smp.outRate) := by
  have hpos : 0 < s.elapsed + delta := by linarith
  unfold fluxStep
  rw [if_pos h]
  refine ⟨rfl, rfl, hpos, ?_⟩
  rintro smp hsmp
  injection hsmp with hq
  subst hq
  exact ⟨div_nonneg (Nat.cast_nonneg _) (le_of_lt hpos),
    div_nonneg (Nat.cast_nonneg _) (le_of_lt hpos)⟩

/-- Witness for C7: a window of 0.5 plus a delta of 0.6 crosses the 1-unit
window with 3 enter and 2 exit events accumulated. -/
theorem c7_flux_window_witness :
    (1 : ℝ) ≤ 0.5 + 0.6 ∧
      ((fluxStep 0.6 ⟨0.5, 3, 2⟩).1 = ⟨0, 0, 0⟩ ∧
        (fluxStep 0.6 ⟨0.5, 3, 2⟩).2 = some ⟨((3 : ℕ) : ℝ) / (0.5 + 0.6),
          ((2 : ℕ) : ℝ) / (0.5 + 0.6)⟩ ∧
        (0 : ℝ) < 0.5 + 0.6 ∧
        (∀ smp : RateSample, (fluxStep 0.6 ⟨0.5, 3, 2⟩).2 = some smp →
          0 ≤ smp.inRate ∧ 0 ≤ smp.outRate)) :=
  ⟨by norm_num, c7_flux_window 0.6 ⟨0.5, 3, 2⟩ (by norm_num)⟩

/-! ### Reseed counting facts -/

lemma clampT_mem (g lo hi : ℝ) (h : lo ≤ hi) :
    lo ≤ clampT g lo hi ∧ clampT g lo hi ≤ hi :=
  ⟨le_max_left _ _, max_le h (min_le_left _ _)⟩

lemma activeCountN_bounds (g : ℝ) :
    MINP ≤ activeCountN g ∧ activeCountN g ≤ MAXP := by
  have ht := clampT_mem g 0 1 (by norm_num)
  have hx0 : (450 : ℝ) ≤ lerpT (MINP : ℝ) (MAXP : ℝ) (clampT g 0 1) := by
    unfold lerpT MINP MAXP
    push_cast
    nlinarith [ht.1, ht.2]
  have hx1 : lerpT (MINP : ℝ) (MAXP : ℝ) (clampT g 0 1) ≤ 1400 := by
    unfold lerpT MINP MAXP
    push_cast
    nlinarith [ht.1, ht.2]
  have hlo : (450 : ℤ) ≤ ⌊lerpT (MINP : ℝ) (MAXP : ℝ) (clampT g 0 1)⌋ :=
    Int.le_floor.mpr (by exact_mod_cast hx0)
  have hhi : ⌊lerpT (MINP : ℝ) (MAXP : ℝ) (clampT g 0 1)⌋ ≤ (1400 : ℤ) := by
    have := Int.floor_le_floor (α := ℝ) hx1
    rwa [show ⌊(1400 : ℝ)⌋ = (1400 : ℤ) by norm_num] at this
  unfold activeCountN
  unfold MINP MAXP at hlo hhi ⊢
  omega

lemma insideTargetFrac_mem (g : ℝ) :
    0.05 ≤ insideTargetFrac g ∧ insideTargetFrac g ≤ 0.95 :=
  clampT_mem _ 0.05 0.95 (by norm_num)

lemma insideTargetN_le (g : ℝ) : insideTargetN g ≤ activeCountN g := by
  have hac := activeCountN_bounds g
  have hfr := insideTargetFrac_mem g
  have h450 : (450 : ℝ) ≤ (activeCountN g : ℝ) := by
    have := hac.1
    unfold MINP at this
    exact_mod_cast this
  have hx : (activeCountN g : ℝ) * insideTargetFrac g + 0.5 ≤ (activeCountN g : ℝ) := by
    have h1 : (activeCountN g : ℝ) * insideTargetFrac g ≤
        (activeCountN g : ℝ) * 0.95 :=
      mul_le_mul_of_nonneg_left hfr.2 (by positivity)
    nlinarith
  have hfloor : ⌊(activeCountN g : ℝ) * insideTargetFrac g + 0.5⌋ ≤
      (activeCountN g : ℤ) := by
    have := Int.floor_le_floor (α := ℝ) hx
    rwa [Int.floor_natCast] at this
  unfold insideTargetN
  omega

lemma countP_range_lt (t n : ℕ) :
    (List.range n).countP (fun i => decide (i < t)) = min t n := by
  induction n with
  | zero => simp
  | succ m ih =>
    rw [List.range_succ, List.countP_append, ih]
    by_cases h : m < t
    · simp [List.countP_cons, h]
      omega
    · simp [List.countP_cons, h]
      omega

lemma count_range_ite (t n : ℕ) :
    ((List.range n).map (fun i => if i < t then (0 : ℕ) else 1)).count 0 =
      min t n := by
  induction n with
  | zero => simp
  | succ m ih =>
    rw [List.range_succ, List.map_append, List.count_append, ih]
    by_cases h : m < t
    · simp [h]
      omega
    · simp [h]
      omega

set_option maxRecDepth 4000 in
/-- C6: immediately after `reseed(g)` the active population has exactly
`activeCount(g)` particles, and the number of inside-assigned active particles
(`species = 0`, equivalently side flag "inside") equals
`round(activeCount(g) * insideTargetFraction(g))` exactly, whatever the random
placement draws were. -/
theorem c6_reseed_occupancy (radius g : ℝ) (draws : ℕ → ReseedDraws)
    (s : PoolState) :
    (reseedPool radius g draws s).particles.length = activeCountN g ∧
      countRed (reseedPool radius g draws s).species (activeCountN g) =
        insideTargetN g ∧
      (reseedPool radius g draws s).particles.countP (fun p => !p.side) =
        insideTargetN g := by
  have hle := insideTargetN_le g
  have hMAX := (activeCountN_bounds g).2
  refine ⟨?_, ?_, ?_⟩
  · simp [reseedPool]
  · show (((List.range MAXP).map
        (fun i => if i < activeCountN g then
          (if i < insideTargetN g then (0 : ℕ) else 1)
          else s.species.getD i 1)).take (activeCountN g)).count 0 =
      insideTargetN g
    rw [← List.map_take, List.take_range, min_eq_left hMAX]
    have hcong : (List.range (activeCountN g)).map
        (fun i => if i < activeCountN g then
          (if i < insideTargetN g then (0 : ℕ) else 1)
          else s.species.getD i 1) =
        (List.range (activeCountN g)).map
          (fun i => if i < insideTargetN g then (0 : ℕ) else 1) :=
      List.map_congr_left (fun a ha => if_pos (List.mem_range.mp ha))
    rw [hcong, count_range_ite, min_eq_left hle]
  · show ((List.range (activeCountN g)).map
        (fun i => reseedParticle radius (decide (i < insideTargetN g))
          (draws i))).countP (fun p => !p.side) = insideTargetN g
    rw [List.countP_map]
    have hfun : ((fun p : Particle => !p.side) ∘
        fun i => reseedParticle radius (decide (i < insideTargetN g)) (draws i))
        = fun i => decide (i < insideTargetN g) := by
      funext i
      simp [reseedParticle, Function.comp]
    rw [hfun, countP_range_lt, min_eq_left hle]

/-! ### Zero-delta stepping -/

lemma len_axis_nonneg (x : ℝ) (h : 0 ≤ x) : len (x, 0, 0) = x := by
  rw [len_axis, abs_of_nonneg h]

lemma newVel_zero (P : SimParams) (d : StepDraws) (p : Particle) :
    newVel P 0 d p = p.vel := by
  unfold newVel dampingOf
  rw [Real.rpow_zero]
  simp [vsmul]

lemma newPosRaw_zero (P : SimParams) (d : StepDraws) (p : Particle) :
    newPosRaw P 0 d p = p.pos := by
  unfold newPosRaw
  rw [newVel_zero]
  simp [vadd, vsmul]

lemma resolved_zero (P : SimParams) (d : StepDraws) (p : Particle) :
    resolved P 0 d p = (p.pos, p.vel) := by
  unfold resolved
  rw [newPosRaw_zero, newVel_zero, if_neg (by simp)]

lemma stepParticle_zero (P : SimParams) (d : StepDraws) (p : Particle)
    (hside : p.side = true ↔ P.radius ≤ len p.pos)
    (hlo : P.radius * 0.15 ≤ len p.pos) (hhi : len p.pos ≤ P.radius * 2.6) :
    stepParticle P 0 d p = (p, none) := by
  simp only [stepParticle, resolved_zero]
  rw [detect_consistent _ _ _ hside,
    clampRadial_noop _ _ _ (not_lt.mpr hlo) (not_lt.mpr hhi)]

lemma stepActive_zero (P : SimParams) (draws : ℕ → StepDraws) :
    ∀ ps : List Particle,
      (∀ p ∈ ps, (p.side = true ↔ P.radius ≤ len p.pos) ∧
        P.radius * 0.15 ≤ len p.pos ∧ len p.pos ≤ P.radius * 2.6) →
      ∀ i, stepActive P 0 draws i ps = (ps, 0, 0) := by
  intro ps
  induction ps with
  | nil => intro _ _; rfl
  | cons p rest ih =>
    intro h i
    have hp := h p (List.mem_cons_self p rest)
    have hrest := fun q hq => h q (List.mem_cons_of_mem p hq)
    simp only [stepActive, stepParticle_zero P (draws i) p hp.1 hp.2.1 hp.2.2,
      ih hrest (i + 1)]
    simp

/-- C8 (amended): `step(0)` leaves every particle's position, velocity and
side flag and the crossing counters unchanged, provided each active particle's
side flag agrees with `|position| >= R`, each active particle already lies in
the radial clamp band `[0.15*R, 2.6*R]`, and the flux sampling window is not
yet due (`fluxElapsed < 1`); all three conditions hold for every state the
running simulation produces after a step. -/
theorem c8_step_zero_noop (P : SimParams) (draws : ℕ → StepDraws)
    (s : PoolState)
    (hinv : ∀ p ∈ s.particles, (p.side = true ↔ P.radius ≤ len p.pos) ∧
      P.radius * 0.15 ≤ len p.pos ∧ len p.pos ≤ P.radius * 2.6)
    (hflux : s.fluxElapsed < 1) :
    (stepPool P 0 draws s).1.particles = s.particles ∧
      (stepPool P 0 draws s).1.enterCount = s.enterCount ∧
      (stepPool P 0 draws s).1.exitCount = s.exitCount ∧
      (stepPool P 0 draws s).1.fluxElapsed = s.fluxElapsed := by
  have hsa := stepActive_zero P draws s.particles hinv 0
  have hfe : ¬ (1 : ℝ) ≤ s.fluxElapsed + 0 := by
    rw [add_zero]; exact not_le.mpr hflux
  simp only [stepPool, hsa, fluxStep, if_neg hfe]
  simp

/-- Witness for C8 (amended): one consistent outside particle at distance 2,
radius 1, flux window at 0. -/
theorem c8_step_zero_noop_witness :
    ((0 : ℝ) < 1) ∧
      ((stepPool ⟨1, 0, 25⟩ 0 (fun _ => ⟨0, 0, 0, 0⟩)
          ⟨[⟨(2, 0, 0), (0, 0, 0), true⟩], [0], 0, 0, 0, 0⟩).1.particles =
            [⟨(2, 0, 0), (0, 0, 0), true⟩] ∧
        (stepPool ⟨1, 0, 25⟩ 0 (fun _ => ⟨0, 0, 0, 0⟩)
          ⟨[⟨(2, 0, 0), (0, 0, 0), true⟩], [0], 0, 0, 0, 0⟩).1.enterCount = 0 ∧
        (stepPool ⟨1, 0, 25⟩ 0 (fun _ => ⟨0, 0, 0, 0⟩)
          ⟨[⟨(2, 0, 0), (0, 0, 0), true⟩], [0], 0, 0, 0, 0⟩).1.exitCount = 0 ∧
        (stepPool ⟨1, 0, 25⟩ 0 (fun _ => ⟨0, 0, 0, 0⟩)
          ⟨[⟨(2, 0, 0), (0, 0, 0), true⟩], [0], 0, 0, 0, 0⟩).1.fluxElapsed = 0) :=
  ⟨by norm_num,
    c8_step_zero_noop ⟨1, 0, 25⟩ (fun _ => ⟨0, 0, 0, 0⟩)
      ⟨[⟨(2, 0, 0), (0, 0, 0), true⟩], [0], 0, 0, 0, 0⟩
      (by
        intro p hp
        rw [List.mem_singleton] at hp
        subst hp
        refine ⟨?_, ?_, ?_⟩ <;>
          · rw [show len ((2 : ℝ), 0, 0) = 2 from len_axis_nonneg 2 (by norm_num)]
            norm_num)
      (by norm_num)⟩

/-- C8 counterexample: a reachable pool state (a reseeded inside particle at
distance `0.1 < 0.15*R`) on which `step(0)` moves the particle — the radial
clamp fires even with a zero delta, so `step(0)` is not a no-op on every pool
state. -/
theorem c8_counterexample :
    (stepPool ⟨1, 0, 25⟩ 0 (fun _ => ⟨0, 0, 0, 0⟩)
      ⟨[⟨(0.1, 0, 0), (0, 0, 0), false⟩], [0], 0, 0, 0, 0⟩).1.particles ≠
      [⟨((0.1 : ℝ), 0, 0), (0, 0, 0), false⟩] := by
  have hlen : len ((0.1 : ℝ), 0, 0) = 0.1 := len_axis_nonneg 0.1 (by norm_num)
  have h1 : stepParticle ⟨1, 0, 25⟩ 0 ⟨0, 0, 0, 0⟩
      ⟨(0.1, 0, 0), (0, 0, 0), false⟩ =
      (⟨(0.15, 0, 0), (0, 0, 0), false⟩, none) := by
    simp only [stepParticle, resolved_zero, hlen]
    rw [detect_consistent 1 0.1 false (by norm_num)]
    simp only [clampRadial]
    rw [if_pos (by norm_num : (0.1 : ℝ) < 1 * 0.15),
      if_neg (by norm_num : ¬ ((1 : ℝ) * 2.6 < 0.1))]
    simp only [vsmul, Prod.mk.injEq, Particle.mk.injEq]
    rw [max_eq_right (by norm_num : (1e-6 : ℝ) ≤ 0.1)]
    norm_num
  simp only [stepPool, stepActive, h1]
  simp only [ne_eq, List.cons.injEq, Particle.mk.injEq, Prod.mk.injEq]
  norm_num

/-! ### Rejected crossings -/

lemma reflect_len_true (P : SimParams) (p1 v2 : Vec3) (hp1 : len p1 ≠ 0)
    (hR : 0 ≤ P.radius) :
    len (reflectAt P true p1 v2).1 = P.radius + 0.02 * P.radius := by
  simp only [reflectAt]
  rw [if_pos trivial, len_vsmul, len_normalize _ hp1, mul_one,
    abs_of_nonneg (by nlinarith : (0 : ℝ) ≤ P.radius + 0.02 * P.radius)]

lemma reflect_len_false (P : SimParams) (p1 v2 : Vec3) (hp1 : len p1 ≠ 0)
    (hR : 0 ≤ P.radius) :
    len (reflectAt P false p1 v2).1 = P.radius - 0.02 * P.radius := by
  simp only [reflectAt]
  rw [if_neg (by simp : ¬ (false = true)), len_vsmul, len_normalize _ hp1,
    mul_one,
    abs_of_nonneg (by nlinarith : (0 : ℝ) ≤ P.radius + -(0.02 * P.radius))]
  ring

/-- C4 (amended): a rejected membrane crossing leaves the particle strictly on
its pre-step side of `R`, emits no crossing event and leaves the side flag (and
hence the enter/exit counters, which only events increment) unchanged —
provided the integrated position is not exactly the cell center (in the
inward-rejection case; an outward crossing always has positive distance). -/
theorem c4_rejected_crossing (P : SimParams) (delta : ℝ) (d : StepDraws)
    (p : Particle) (hR : 0 < P.radius)
    (hside : p.side = true ↔ P.radius ≤ len p.pos)
    (hrej :
      (len p.pos < P.radius ∧ P.radius ≤ len (newPosRaw P delta d p) ∧
        pExit P ≤ d.u) ∨
      (P.radius ≤ len p.pos ∧ len (newPosRaw P delta d p) < P.radius ∧
        pEnter P ≤ d.u ∧ len (newPosRaw P delta d p) ≠ 0)) :
    (stepParticle P delta d p).2 = none ∧
      (stepParticle P delta d p).1.side = p.side ∧
      (len p.pos < P.radius → len (stepParticle P delta d p).1.pos < P.radius) ∧
      (P.radius ≤ len p.pos → P.radius ≤ len (stepParticle P delta d p).1.pos) := by
  rcases hrej with ⟨hA, hA2, hAu⟩ | ⟨hB, hB2, hBu, hBnz⟩
  · -- outward crossing, rejected: reflected to distance 0.98 * R
    have hne : len p.pos ≠ len (newPosRaw P delta d p) :=
      ne_of_lt (lt_of_lt_of_le hA hA2)
    have hp1 : len (newPosRaw P delta d p) ≠ 0 :=
      ne_of_gt (lt_of_lt_of_le hR hA2)
    have hres : resolved P delta d p =
        reflectAt P false (newPosRaw P delta d p) (newVel P delta d p) := by
      simp only [resolved, resolveCrossing]
      rw [if_pos hne, if_pos (Or.inl ⟨hA, hA2⟩),
        if_neg (show ¬ (P.radius ≤ len p.pos ∧
          len (newPosRaw P delta d p) < P.radius) from
          fun h => absurd h.1 (not_le.mpr hA)),
        if_neg (not_lt.mpr hAu)]
    have hdist : len (resolved P delta d p).1 = P.radius - 0.02 * P.radius := by
      rw [hres, reflect_len_false P _ _ hp1 (le_of_lt hR)]
    have hsidef : p.side = false := by
      cases hb : p.side
      · rfl
      · exact absurd (hside.mp hb) (not_le.mpr hA)
    have hcons : p.side = true ↔ P.radius ≤ len (resolved P delta d p).1 := by
      rw [hsidef, hdist]
      constructor
      · intro h; cases h
      · intro h; nlinarith
    have hnl : ¬ (len (resolved P delta d p).1 < P.radius * 0.15) := by
      rw [hdist]; intro h; nlinarith
    have hnh : ¬ (P.radius * 2.6 < len (resolved P delta d p).1) := by
      rw [hdist]; intro h; nlinarith
    have hstep : stepParticle P delta d p =
        (⟨(resolved P delta d p).1, (resolved P delta d p).2, p.side⟩, none) := by
      simp only [stepParticle]
      rw [detect_consistent _ _ _ hcons, clampRadial_noop _ _ _ hnl hnh]
    rw [hstep]
    refine ⟨rfl, rfl, fun _ => ?_, fun hcon => absurd hcon (not_le.mpr hA)⟩
    show len (resolved P delta d p).1 < P.radius
    rw [hdist]
    nlinarith
  · -- inward crossing, rejected: reflected to distance 1.02 * R
    have hne : len p.pos ≠ len (newPosRaw P delta d p) :=
      (ne_of_lt (lt_of_lt_of_le hB2 hB)).symm
    have hres : resolved P delta d p =
        reflectAt P true (newPosRaw P delta d p) (newVel P delta d p) := by
      simp only [resolved, resolveCrossing]
      rw [if_pos hne, if_pos (Or.inr ⟨hB, hB2⟩), if_pos ⟨hB, hB2⟩,
        if_neg (not_lt.mpr hBu)]
    have hdist : len (resolved P delta d p).1 = P.radius + 0.02 * P.radius := by
      rw [hres, reflect_len_true P _ _ hBnz (le_of_lt hR)]
    have hsidet : p.side = true := hside.mpr hB
    have hcons : p.side = true ↔ P.radius ≤ len (resolved P delta d p).1 := by
      rw [hsidet, hdist]
      constructor
      · intro _; nlinarith
      · intro _; rfl
    have hnl : ¬ (len (resolved P delta d p).1 < P.radius * 0.15) := by
      rw [hdist]; intro h; nlinarith
    have hnh : ¬ (P.radius * 2.6 < len (resolved P delta d p).1) := by
      rw [hdist]; intro h; nlinarith
    have hstep : stepParticle P delta d p =
        (⟨(resolved P delta d p).1, (resolved P delta d p).2, p.side⟩, none) := by
      simp only [stepParticle]
      rw [detect_consistent _ _ _ hcons, clampRadial_noop _ _ _ hnl hnh]
    rw [hstep]
    refine ⟨rfl, rfl, fun hcon => absurd hB (not_le.mpr hcon), fun _ => ?_⟩
    show P.radius ≤ len (resolved P delta d p).1
    rw [hdist]
    nlinarith

lemma c4_eval_newVel : newVel ⟨1, 0, 0⟩ 1 ⟨0, 0, 0, 0.98⟩
    ⟨(2, 0, 0), (-100 / 39, 0, 0), true⟩ = (-2, 0, 0) := by
  simp only [newVel, vsmul, dampingOf, accelOf, speedFactor, tempNorm,
    radiusFactor, clampT]
  rw [Real.rpow_one]
  norm_num [min_def, max_def, Prod.mk.injEq]

lemma c4_eval_newPosRaw : newPosRaw ⟨1, 0, 0⟩ 1 ⟨0, 0, 0, 0.98⟩
    ⟨(2, 0, 0), (-100 / 39, 0, 0), true⟩ = (0.5, 0, 0) := by
  rw [newPosRaw, c4_eval_newVel]
  simp only [vadd, vsmul, moveScaleOf, speedFactor, tempNorm, radiusFactor,
    clampT]
  norm_num [min_def, max_def, Prod.mk.injEq]

lemma c4_eval_pEnter : pEnter ⟨1, 0, 0⟩ = 0.97 := by
  simp only [pEnter, clampT, basePerm, biasPerm]
  norm_num [min_def, max_def]

/-- Witness for C4 (amended): radius 1, an outside particle at distance 2
whose integrated position lands at distance 0.5 (an inward crossing), with the
permeation draw 0.98 rejecting it. -/
theorem c4_rejected_crossing_witness :
    ((0 : ℝ) < 1) ∧
      ((stepParticle ⟨1, 0, 0⟩ 1 ⟨0, 0, 0, 0.98⟩
          ⟨(2, 0, 0), (-100 / 39, 0, 0), true⟩).2 = none ∧
        (stepParticle ⟨1, 0, 0⟩ 1 ⟨0, 0, 0, 0.98⟩
          ⟨(2, 0, 0), (-100 / 39, 0, 0), true⟩).1.side = true ∧
        (len ((2 : ℝ), 0, 0) < 1 →
          len (stepParticle ⟨1, 0, 0⟩ 1 ⟨0, 0, 0, 0.98⟩
            ⟨(2, 0, 0), (-100 / 39, 0, 0), true⟩).1.pos < 1) ∧
        (1 ≤ len ((2 : ℝ), 0, 0) →
          1 ≤ len (stepParticle ⟨1, 0, 0⟩ 1 ⟨0, 0, 0, 0.98⟩
            ⟨(2, 0, 0), (-100 / 39, 0, 0), true⟩).1.pos)) :=
  ⟨by norm_num,
    c4_rejected_crossing ⟨1, 0, 0⟩ 1 ⟨0, 0, 0, 0.98⟩
      ⟨(2, 0, 0), (-100 / 39, 0, 0), true⟩ (by norm_num)
      (by
        rw [len_axis_nonneg 2 (by norm_num)]
        norm_num)
      (Or.inr ⟨by
          rw [len_axis_nonneg 2 (by norm_num)]
          norm_num,
        by
          rw [c4_eval_newPosRaw, len_axis_nonneg 0.5 (by norm_num)]
          norm_num,
        by
          rw [c4_eval_pEnter]
          norm_num,
        by
          rw [c4_eval_newPosRaw, len_axis_nonneg 0.5 (by norm_num)]
          norm_num⟩)⟩

/-- C4 counterexample: radius 1, an outside particle at distance 1 whose
integrated position is exactly the cell center.  The crossing is inward
(`dist0 = 1 >= R > 0 = dist1`) and the draw 0.98 rejects it (`pEnter = 0.97`),
yet `normalize` of the zero vector is the zero vector, so the "reflected"
particle ends at the center: an enter event is emitted, the side flag flips to
inside and the finalized position is strictly inside — the rejected crossing
does not keep the particle on its pre-step side. -/
theorem c4_counterexample :
    (1 : ℝ) ≤ len ((1 : ℝ), 0, 0) ∧
      pEnter ⟨1, 0, 0⟩ ≤ 0.98 ∧
      len (newPosRaw ⟨1, 0, 0⟩ 1 ⟨0, 0, 0, 0.98⟩
        ⟨(1, 0, 0), (-200 / 117, 0, 0), true⟩) < 1 ∧
      (stepParticle ⟨1, 0, 0⟩ 1 ⟨0, 0, 0, 0.98⟩
        ⟨(1, 0, 0), (-200 / 117, 0, 0), true⟩).2 = some CrossKind.cEnter ∧
      (stepParticle ⟨1, 0, 0⟩ 1 ⟨0, 0, 0, 0.98⟩
        ⟨(1, 0, 0), (-200 / 117, 0, 0), true⟩).1.side = false ∧
      len (stepParticle ⟨1, 0, 0⟩ 1 ⟨0, 0, 0, 0.98⟩
        ⟨(1, 0, 0), (-200 / 117, 0, 0), true⟩).1.pos < 1 := by
  have hlen0 : len ((0 : ℝ), 0, 0) = 0 := len_axis_nonneg 0 le_rfl
  have hlen1 : len ((1 : ℝ), 0, 0) = 1 := len_axis_nonneg 1 (by norm_num)
  have hnv : newVel ⟨1, 0, 0⟩ 1 ⟨0, 0, 0, 0.98⟩
      ⟨(1, 0, 0), (-200 / 117, 0, 0), true⟩ = (-4 / 3, 0, 0) := by
    simp only [newVel, vsmul, dampingOf, accelOf, speedFactor, tempNorm,
      radiusFactor, clampT]
    rw [Real.rpow_one]
    norm_num [min_def, max_def, Prod.mk.injEq]
  have hnp : newPosRaw ⟨1, 0, 0⟩ 1 ⟨0, 0, 0, 0.98⟩
      ⟨(1, 0, 0), (-200 / 117, 0, 0), true⟩ = (0, 0, 0) := by
    rw [newPosRaw, hnv]
    simp only [vadd, vsmul, moveScaleOf, speedFactor, tempNorm, radiusFactor,
      clampT]
    norm_num [min_def, max_def, Prod.mk.injEq]
  have hnorm0 : normalize ((0 : ℝ), 0, 0) = ((0 : ℝ), 0, 0) := by
    simp only [normalize, hlen0]
    simp [vsmul]
  have hrefl : reflectAt ⟨1, 0, 0⟩ true ((0 : ℝ), 0, 0) ((-4 / 3 : ℝ), 0, 0) =
      (((0 : ℝ), 0, 0), ((-4 / 3 : ℝ), 0, 0)) := by
    simp only [reflectAt, hnorm0]
    simp [vsmul, vadd, dot]
  have hres : resolved ⟨1, 0, 0⟩ 1 ⟨0, 0, 0, 0.98⟩
      ⟨(1, 0, 0), (-200 / 117, 0, 0), true⟩ =
      (((0 : ℝ), 0, 0), ((-4 / 3 : ℝ), 0, 0)) := by
    simp only [resolved, resolveCrossing, hnp, hnv, hlen0, hlen1]
    rw [if_pos (by norm_num : (1 : ℝ) ≠ 0),
      if_pos (Or.inr ⟨le_rfl, by norm_num⟩), if_pos ⟨le_rfl, by norm_num⟩,
      if_neg (by rw [c4_eval_pEnter]; norm_num : ¬ ((0.98 : ℝ) < pEnter ⟨1, 0, 0⟩)),
      hrefl]
  have hdet : detectCrossing (1 : ℝ) 0 true = (false, some CrossKind.cEnter) := by
    simp only [detectCrossing, if_neg (by norm_num : ¬ ((1 : ℝ) ≤ 0))]
    simp
  have hclamp : clampRadial (1 : ℝ) 0 ((0 : ℝ), 0, 0) = ((0 : ℝ), 0, 0) := by
    simp only [clampRadial]
    rw [if_neg (by norm_num : ¬ ((1 : ℝ) * 2.6 < 0)),
      if_pos (by norm_num : (0 : ℝ) < 1 * 0.15)]
    simp [vsmul]
  have hstep : stepParticle ⟨1, 0, 0⟩ 1 ⟨0, 0, 0, 0.98⟩
      ⟨(1, 0, 0), (-200 / 117, 0, 0), true⟩ =
      (⟨((0 : ℝ), 0, 0), ((-4 / 3 : ℝ), 0, 0), false⟩, some CrossKind.cEnter) := by
    simp only [stepParticle, hres, hlen0, hdet, hclamp]
  refine ⟨by rw [hlen1], by rw [c4_eval_pEnter]; norm_num,
    by rw [hnp, hlen0]; norm_num, ?_, ?_, ?_⟩
  · rw [hstep]
  · rw [hstep]
  · rw [hstep]
    show len ((0 : ℝ), 0, 0) < 1
    rw [hlen0]
    norm_num

/-- C10 (code bug): in the rejected-crossing branch the code reflects the
velocity against the SCALED normal, not the unit normal, because
`normal.multiplyScalar(...)` mutates `normal` before the dot product
(`Cell.tsx:232-234`).  At radius 2, an inward crossing from distance 3 to
distance 1.5 rejected by the draw 0.98 turns the pre-reflection velocity
`(-4, 0, 0)` into `(29.2928, 0, 0)` (`= v - 2*m^2*(v·n̂)*n̂` with
`m = 1.02 * R = 2.04`), instead of the specular `(4, 0, 0)`: the speed jumps
from 4 to 29.2928, so the claimed norm preservation fails on the code. -/
theorem c10_reflection_speed_bug :
    pEnter ⟨2, 0, 0⟩ ≤ 0.98 ∧
      (2 : ℝ) ≤ len ((3 : ℝ), 0, 0) ∧
      len (newPosRaw ⟨2, 0, 0⟩ 1 ⟨0, 0, 0, 0.98⟩
        ⟨(3, 0, 0), (-200 / 39, 0, 0), true⟩) < 2 ∧
      newVel ⟨2, 0, 0⟩ 1 ⟨0, 0, 0, 0.98⟩
        ⟨(3, 0, 0), (-200 / 39, 0, 0), true⟩ = (-4, 0, 0) ∧
      (stepParticle ⟨2, 0, 0⟩ 1 ⟨0, 0, 0, 0.98⟩
        ⟨(3, 0, 0), (-200 / 39, 0, 0), true⟩).1.vel = (29.2928, 0, 0) ∧
      normSq ((29.2928 : ℝ), 0, 0) ≠ normSq ((-4 : ℝ), 0, 0) := by
  have hlen3 : len ((3 : ℝ), 0, 0) = 3 := len_axis_nonneg 3 (by norm_num)
  have hlen15 : len ((1.5 : ℝ), 0, 0) = 1.5 := len_axis_nonneg 1.5 (by norm_num)
  have hpe : pEnter ⟨2, 0, 0⟩ = 0.97 := by
    simp only [pEnter, clampT, basePerm, biasPerm]
    norm_num [min_def, max_def]
  have hnv : newVel ⟨2, 0, 0⟩ 1 ⟨0, 0, 0, 0.98⟩
      ⟨(3, 0, 0), (-200 / 39, 0, 0), true⟩ = (-4, 0, 0) := by
    simp only [newVel, vsmul, dampingOf, accelOf, speedFactor, tempNorm,
      radiusFactor, clampT]
    rw [Real.rpow_one]
    norm_num [min_def, max_def, Prod.mk.injEq]
  have hnp : newPosRaw ⟨2, 0, 0⟩ 1 ⟨0, 0, 0, 0.98⟩
      ⟨(3, 0, 0), (-200 / 39, 0, 0), true⟩ = (1.5, 0, 0) := by
    rw [newPosRaw, hnv]
    simp only [vadd, vsmul, moveScaleOf, speedFactor, tempNorm, radiusFactor,
      clampT]
    norm_num [min_def, max_def, Prod.mk.injEq]
  have hnorm : normalize ((1.5 : ℝ), 0, 0) = ((1 : ℝ), 0, 0) := by
    simp only [normalize, hlen15]
    rw [if_neg (by norm_num : (1.5 : ℝ) ≠ 0)]
    simp only [vsmul]
    norm_num [Prod.mk.injEq]
  have hrefl : reflectAt ⟨2, 0, 0⟩ true ((1.5 : ℝ), 0, 0) ((-4 : ℝ), 0, 0) =
      (((2.04 : ℝ), 0, 0), ((29.2928 : ℝ), 0, 0)) := by
    simp only [reflectAt, hnorm]
    rw [if_pos trivial]
    simp only [vsmul, vadd, dot]
    norm_num [Prod.mk.injEq]
  have hres : resolved ⟨2, 0, 0⟩ 1 ⟨0, 0, 0, 0.98⟩
      ⟨(3, 0, 0), (-200 / 39, 0, 0), true⟩ =
      (((2.04 : ℝ), 0, 0), ((29.2928 : ℝ), 0, 0)) := by
    simp only [resolved, resolveCrossing, hnp, hnv, hlen3, hlen15]
    rw [if_pos (by norm_num : (3 : ℝ) ≠ 1.5),
      if_pos (Or.inr ⟨by norm_num, by norm_num⟩),
      if_pos ⟨(by norm_num : (2 : ℝ) ≤ 3), (by norm_num : (1.5 : ℝ) < 2)⟩,
      if_neg (by rw [hpe]; norm_num : ¬ ((0.98 : ℝ) < pEnter ⟨2, 0, 0⟩)),
      hrefl]
  refine ⟨by rw [hpe]; norm_num, by rw [hlen3]; norm_num,
    by rw [hnp, hlen15]; norm_num, hnv, ?_, ?_⟩
  · simp only [stepParticle, hres]
  · simp only [normSq, dot]
    norm_num

lemma stepActive_length (P : SimParams) (delta : ℝ) (draws : ℕ → StepDraws) :
    ∀ (ps : List Particle) (i : ℕ),
      (stepActive P delta draws i ps).1.length = ps.length := by
  intro ps
  induction ps with
  | nil => intro _; rfl
  | cons p rest ih =>
    intro i
    simp only [stepActive, List.length_cons, ih (i + 1)]

/-- C5 (amended): each emitted occupancy sample reports the reseed-assigned
`species` counts, not the current side occupancy: `insideCount` equals the
number of active particles whose `species` flag was set to inside at the last
reseed.  The frame loop never writes `species`, so the emitted counts change
only at reseed, not as particles cross. -/
theorem c5_counts_report_species (P : SimParams) (delta : ℝ)
    (draws : ℕ → StepDraws) (s : PoolState)
    (h : 1 ≤ s.countsElapsed + delta) :
    (stepPool P delta draws s).1.species = s.species ∧
      (stepPool P delta draws s).2.1 =
        some ⟨countRed s.species s.particles.length,
          s.particles.length - countRed s.species s.particles.length⟩ := by
  refine ⟨rfl, ?_⟩
  simp only [stepPool, countsStep, stepActive_length P delta draws s.particles 0]
  rw [if_pos h]

/-- Witness for C5 (amended): a due counts window over a one-particle pool
whose single particle was reseed-assigned inside. -/
theorem c5_counts_report_species_witness :
    (1 : ℝ) ≤ 1 + 0 ∧
      ((stepPool ⟨1, 0, 25⟩ 0 (fun _ => ⟨0, 0, 0, 0⟩)
          ⟨[⟨(0.5, 0, 0), (0, 0, 0), false⟩], [0], 1, 0, 0, 0⟩).1.species = [0] ∧
        (stepPool ⟨1, 0, 25⟩ 0 (fun _ => ⟨0, 0, 0, 0⟩)
          ⟨[⟨(0.5, 0, 0), (0, 0, 0), false⟩], [0], 1, 0, 0, 0⟩).2.1 =
          some ⟨countRed [0] 1, 1 - countRed [0] 1⟩) :=
  ⟨by norm_num,
    c5_counts_report_species ⟨1, 0, 25⟩ 0 (fun _ => ⟨0, 0, 0, 0⟩)
      ⟨[⟨(0.5, 0, 0), (0, 0, 0), false⟩], [0], 1, 0, 0, 0⟩ (by norm_num)⟩

/-- C5 counterexample: a pool whose single active particle is currently
OUTSIDE the membrane (position at distance 2, radius 1) but was
reseed-assigned inside (`species = 0`).  The emitted sample still reports
`insideCount = 1` although the current side occupancy has 0 particles inside:
the emitted counts do not report current occupancy at emission time. -/
theorem c5_counterexample :
    (stepPool ⟨1, 0, 25⟩ 0 (fun _ => ⟨0, 0, 0, 0⟩)
      ⟨[⟨(2, 0, 0), (0, 0, 0), true⟩], [0], 1, 0, 0, 0⟩).2.1 =
      some ⟨1, 0⟩ ∧
      currentInsideCount
        (stepPool ⟨1, 0, 25⟩ 0 (fun _ => ⟨0, 0, 0, 0⟩)
          ⟨[⟨(2, 0, 0), (0, 0, 0), true⟩], [0], 1, 0, 0, 0⟩).1.particles 1 = 0 ∧
      (1 : ℕ) ≠ 0 := by
  have hlen2 : len ((2 : ℝ), 0, 0) = 2 := len_axis_nonneg 2 (by norm_num)
  have hsa : stepActive ⟨1, 0, 25⟩ 0 (fun _ => ⟨0, 0, 0, 0⟩) 0
      [⟨(2, 0, 0), (0, 0, 0), true⟩] = ([⟨(2, 0, 0), (0, 0, 0), true⟩], 0, 0) :=
    stepActive_zero ⟨1, 0, 25⟩ (fun _ => ⟨0, 0, 0, 0⟩)
      [⟨(2, 0, 0), (0, 0, 0), true⟩]
      (by
        intro p hp
        rw [List.mem_singleton] at hp
        subst hp
        refine ⟨?_, ?_, ?_⟩ <;>
          · rw [hlen2]
            norm_num)
      0
  refine ⟨?_, ?_, by norm_num⟩
  · simp only [stepPool, hsa, countsStep]
    rw [if_pos (by norm_num : (1 : ℝ) ≤ 1 + 0)]
    rfl
  · simp only [stepPool, hsa, currentInsideCount, List.countP_cons,
      List.countP_nil]
    rw [hlen2, decide_eq_false (by norm_num : ¬ ((2 : ℝ) < 1))]
    rfl

end DiffusionSim
